import Mathlib

set_option autoImplicit false

namespace Autotel

/-! Shallow embedding of the autotel instrumentation core.

Embeds `src/autotel/functional.py` and `src/autotel/subscribers/posthog.py`.
Python dicts are insertion-ordered association lists; Python exceptions are
`Except` results; the ambient OpenTelemetry context (attached/detached with
tokens) is explicit state threaded through scoped operations. -/

/-- The fragment of Python values the embedded code manipulates. -/
inductive Value where
  | vint : Int → Value
  | vstr : String → Value
  | vbool : Bool → Value
  | vnone : Value
deriving DecidableEq, Repr

/-- Python `str(value)` on the embedded value fragment. -/
def pyStr : Value → String
  | .vint i => toString i
  | .vstr s => s
  | .vbool b => if b then "True" else "False"
  | .vnone => "None"

/-- A raised Python exception, reduced to its message. -/
structure Err where
  msg : String
deriving DecidableEq, Repr

/-- A Python callable as the embedding sees it: its `__name__` attribute when it
has one (`some "<lambda>"` for a lambda, `none` when the attribute is absent),
and its behaviour on an argument list (raising = returning `.error`). -/
structure Fn where
  declaredName : Option String
  run : List Value → Except Err Value

/-- The ASCII core of the regex class `\w`: letters, digits and underscore. -/
def isWordChar (c : Char) : Bool :=
  c.isAlphanum || c = '_'

/-- Python `str.strip()`: drop whitespace from both ends. -/
def pyStrip (s : String) : String :=
  String.mk (((s.toList.dropWhile Char.isWhitespace).reverse.dropWhile
    Char.isWhitespace).reverse)

/-- The regex `re.match(r"(\w+)\s*=\s*trace\(", line)`: an identifier at the start of the
line, optional whitespace, `=`, optional whitespace, then the literal `trace(`;
returns the captured identifier. -/
def matchAssignTrace (line : String) : Option String :=
  let cs := line.toList
  let word := cs.takeWhile isWordChar
  let rest := cs.dropWhile isWordChar
  if word.isEmpty then none
  else
    match rest.dropWhile Char.isWhitespace with
    | '=' :: rest2 =>
      if "trace(".toList.isPrefixOf (rest2.dropWhile Char.isWhitespace) then
        some (String.mk word)
      else none
    | _ => none

/-- What the call-stack inspection in `_infer_name` observes: `line` is
`code_context[0]` of the frame two levels up when the whole
`frame.f_back.f_back` / `getframeinfo` chain succeeds and yields a context
(`none` otherwise), and `raises` records whether anything inside the `try`
block raises (the code catches every exception there). -/
structure CallSite where
  line : Option String
  raises : Bool

/-- Strategy 2 of `_infer_name` (functional.py lines 30-44): strip the caller's
source line and match the assignment pattern; any exception degrades to no
result. -/
def inferStrategy2 (cs : CallSite) : Option String :=
  if cs.raises then none
  else
    match cs.line with
    | some l => matchAssignTrace (pyStrip l)
    | none => none

/-- Embeds `_infer_name` (functional.py lines 18-47): the callable's `__name__` when
present and not `"<lambda>"`; else the call-site assignment heuristic; else the
literal `"unnamed"`. -/
def _infer_name (func : Fn) (cs : CallSite) : String :=
  match func.declaredName with
  | some n => if n ≠ "<lambda>" then n else (inferStrategy2 cs).getD "unnamed"
  | none => (inferStrategy2 cs).getD "unnamed"

/-- A named callable used to exercise the name-resolution theorems. -/
def namedFn : Fn :=
  { declaredName := some "create_user", run := fun _ => .ok .vnone }

/-- An anonymous callable (a lambda) used to exercise the theorems. -/
def anonFn : Fn :=
  { declaredName := some "<lambda>", run := fun _ => .ok .vnone }

/-- A call site whose source line matches no assignment-to-trace pattern. -/
def plainCallSite : CallSite :=
  { line := some "result = compute(1, 2)", raises := false }

/-- Span status codes of the external tracing SDK (spec §6). -/
inductive StatusCode where
  | unset
  | ok
  | error
deriving DecidableEq, Repr

/-- An event recorded on a span: a name and string attributes. -/
structure SpanEvent where
  name : String
  attrs : List (String × String)
deriving DecidableEq, Repr

/-- A finalized span as observed through an in-memory exporter: name, final
status with optional description, recorded events, and a finalization flag. -/
structure SpanRec where
  name : String
  status : StatusCode
  statusDescription : Option String
  events : List SpanEvent
  finished : Bool
deriving DecidableEq, Repr

/-- Modelled from the spec: `autotel.decorators.trace` (the
`InstrumentationWrapper` of spec §4.1) is imported by `instrument` but its
module is not among the provided source files. A wrapper value is the wrapped
callable together with the optional explicit name the wrapper was given. -/
structure InstrumentationWrapper where
  fn : Fn
  name : Option String

/-- Modelled from the spec: `trace(func, name=...)` builds the wrapper. -/
def trace (func : Fn) (name : Option String) : InstrumentationWrapper :=
  { fn := func, name := name }

/-- Modelled from the spec (§4.1 items 1, 4, 5): invoking a wrapper resolves
the span name (the explicit name if given, else `_infer_name` at the call
site), opens one span, runs the callable, and finalizes exactly that span:
status left UNSET on a normal return with the result passed through unchanged;
on a raise, status ERROR with the failure's message as description, the failure
recorded as an exception event, and the failure re-raised unchanged. Returns
the call's outcome together with the finished spans the call produced. -/
def invokeWrapper (w : InstrumentationWrapper) (cs : CallSite) (args : List Value) :
    Except Err Value × List SpanRec :=
  let spanName := w.name.getD (_infer_name w.fn cs)
  match w.fn.run args with
  | .ok v =>
    (.ok v,
      [{ name := spanName, status := .unset, statusDescription := none,
         events := [], finished := true }])
  | .error e =>
    (.error e,
      [{ name := spanName, status := .error, statusDescription := some e.msg,
         events := [{ name := "exception", attrs := [("exception.message", e.msg)] }],
         finished := true }])

/-- Embeds `instrument` (functional.py lines 50-64): batch instrumentation of a dict
of operations, `{key: trace(func, name=key) for key, func in operations.items()}`. -/
def instrument (operations : List (String × Fn)) :
    List (String × InstrumentationWrapper) :=
  operations.map fun kv => (kv.1, trace kv.2 (some kv.1))

/-- Python dict lookup on an insertion-ordered association list. -/
def dget? {α : Type} (k : String) : List (String × α) → Option α
  | [] => none
  | kv :: rest => if kv.1 = k then some kv.2 else dget? k rest

/-- The `lambda a, b: a + b` of the spec's example scenario. -/
def addLambda : Fn :=
  { declaredName := some "<lambda>"
    run := fun args =>
      match args with
      | [.vint a, .vint b] => .ok (.vint (a + b))
      | _ => .error { msg := "TypeError" } }

/-- A callable that always raises an error with message `"boom"`. -/
def failingFn : Fn :=
  { declaredName := some "boom_op", run := fun _ => .error { msg := "boom" } }

/-- Python dict insertion `d[k] = v` on an insertion-ordered association list:
an existing key keeps its position and takes the new value, a new key is
appended at the end. -/
def dinsert {α : Type} (k : String) (v : α) : List (String × α) → List (String × α)
  | [] => [(k, v)]
  | kv :: rest => if kv.1 = k then (kv.1, v) :: rest else kv :: dinsert k v rest

/-- Python dict merge `{**base, **upd}`. -/
def dmerge {α : Type} (base upd : List (String × α)) : List (String × α) :=
  upd.foldl (fun acc kv => dinsert kv.1 kv.2 acc) base

/-- The value of the last binding of `k` in a key-value list: what a Python
dict built from the list in order would hold at `k`. -/
def dlast? {α : Type} (k : String) : List (String × α) → Option α
  | [] => none
  | kv :: rest =>
    match dlast? k rest with
    | some v => some v
    | none => if kv.1 = k then some kv.2 else none

/-- First-`some` choice between two optional values. -/
def orElseO {α : Type} (a b : Option α) : Option α :=
  match a with
  | some v => some v
  | none => b

/-- The span identity a context can be linked to; only the trace id matters to
the embedded claims. -/
structure SpanContext where
  traceId : Nat
deriving DecidableEq, Repr

/-- A propagated OpenTelemetry context: its baggage entries and the span the
context is linked to (`none` in an empty/root context). -/
structure Ctx where
  baggage : List (String × String)
  activeSpan : Option SpanContext
deriving DecidableEq, Repr

/-- Models `opentelemetry.context.Context()`: a fresh empty context. -/
def Ctx.empty : Ctx := { baggage := [], activeSpan := none }

/-- Models `opentelemetry.baggage.propagation.set_baggage(key, value, ctx)`: a copy of
the context whose baggage binds `key` to `value`. -/
def set_baggage (k v : String) (c : Ctx) : Ctx :=
  { c with baggage := dinsert k v c.baggage }

/-- Models `opentelemetry.baggage.propagation.get_all(ctx)`: the context's baggage. -/
def get_all (c : Ctx) : List (String × String) := c.baggage

/-- The context `with_baggage` (functional.py lines 150-163) builds before
attaching: read the current baggage, merge the supplied entries over it, then
fold `set_baggage(key, str(value))` over the merged dict starting from the
current context. -/
def with_baggage_ctx (baggage : List (String × Value)) (c : Ctx) : Ctx :=
  let existing : List (String × Value) :=
    (get_all c).map fun kv => (kv.1, Value.vstr kv.2)
  let updated := dmerge existing baggage
  updated.foldl (fun acc kv => set_baggage kv.1 (pyStr kv.2) acc) c

/-- The ambient OpenTelemetry runtime state: the currently attached context,
and the supply of fresh trace ids the SDK draws new root trace identities from
(every id already handed out is below `nextTraceId`). -/
structure OtelState where
  current : Ctx
  nextTraceId : Nat
deriving DecidableEq, Repr

/-- Embeds `with_baggage` (functional.py lines 106-167) as a state transformer:
`context.attach` the merged context — the returned token is the previously
current context — run the body, and `context.detach(token)` in a `finally`,
restoring the token whether the body returned normally or raised (a raising
body is the `Except`-valued instance of `α`). -/
def with_baggage_run {α : Type} (baggage : List (String × Value))
    (body : OtelState → α × OtelState) (st : OtelState) : α × OtelState :=
  let token := st.current
  let entered : OtelState := { st with current := with_baggage_ctx baggage st.current }
  let res := body entered
  (res.1, { res.2 with current := token })

/-- Embeds `with_new_context` (functional.py lines 85-103) as a state transformer:
attach a fresh empty context (saving the prior context as the token), run the
body, and detach in a `finally`, restoring the token on normal and raising
exits alike. -/
def with_new_context_run {α : Type} (body : OtelState → α × OtelState)
    (st : OtelState) : α × OtelState :=
  let token := st.current
  let entered : OtelState := { st with current := Ctx.empty }
  let res := body entered
  (res.1, { res.2 with current := token })

/-- Modelled from the spec (§6, §4.4): the trace identity the external tracing
SDK assigns a span opened under the given state — a child of the active span
inherits its trace id; with no active span the span starts a new root trace
under a fresh id never handed out before. -/
def start_span_trace_id (st : OtelState) : Nat × OtelState :=
  match st.current.activeSpan with
  | some sc => (sc.traceId, st)
  | none => (st.nextTraceId, { st with nextTraceId := st.nextTraceId + 1 })

/-- A context carrying pre-existing baggage, used to exercise the baggage
theorems. -/
def demoCtx : Ctx :=
  { baggage := [("region", "eu"), ("tenant.id", "t1")], activeSpan := none }

/-- Baggage entries supplied to `with_baggage` in the concrete instances: one
new key and one override whose value is stringified. -/
def demoBag : List (String × Value) :=
  [("user.id", Value.vstr "u1"), ("tenant.id", Value.vint 7)]

/-- A runtime state linked to an active span of trace id 5, with fresh ids
starting at 10. -/
def demoState : OtelState :=
  { current := { baggage := [], activeSpan := some { traceId := 5 } }
    nextTraceId := 10 }

/-- Python exceptions raised by the embedded PostHog subscriber code. -/
inductive PyErr where
  | importError : String → PyErr
  | valueError : String → PyErr
  | httpError : String → PyErr
deriving DecidableEq, Repr

/-- Python `s.rstrip("/")`: drop every trailing slash. -/
def rstripSlash (s : String) : String :=
  String.mk ((s.toList.reverse.dropWhile (· = '/')).reverse)

/-- Python `a or b` for a string `a` and an optional string `b`: `a` when it is
truthy (non-empty), else `b`. -/
def pyOrStr (a : String) (b : Option String) : Option String :=
  if a ≠ "" then some a else b

/-- Python truthiness of an optional string: `None` and `""` are falsy. -/
def truthyStr : Option String → Bool
  | none => false
  | some s => s ≠ ""

/-- A constructed `PostHogSubscriber`: the resolved api key, the normalized
host, and the HTTP client (`some ()` while open, `none` after shutdown set
`self.client = None`). -/
structure PostHogSubscriber where
  api_key : Option String
  host : String
  client : Option Unit
deriving DecidableEq, Repr

/-- Embeds `PostHogSubscriber.__init__` (posthog.py lines 25-49): raise `ImportError`
immediately when `httpx` is missing; resolve the key as
`api_key or project_api_key` and raise `ValueError` immediately when the
resolved key is falsy; otherwise construct the subscriber with the host
stripped of trailing slashes and a fresh open client. -/
def PostHogSubscriber.init (httpxAvailable : Bool) (api_key : String)
    (host : String) (project_api_key : Option String) :
    Except PyErr PostHogSubscriber :=
  if httpxAvailable = false then
    .error (.importError
      "httpx is required for PostHogSubscriber. Install with: pip install httpx")
  else
    let key := pyOrStr api_key project_api_key
    if truthyStr key = false then .error (.valueError "api_key is required")
    else .ok { api_key := key, host := rstripSlash host, client := some () }

/-- An operation `shutdown` performs on the HTTP client. -/
inductive ClientOp where
  | aclose
deriving DecidableEq, Repr

/-- Embeds `PostHogSubscriber.shutdown` (posthog.py lines 76-80): when a client is
open, `aclose` it — the environment supplies the outcome of that awaited
call — and only then clear the field; with no client, do nothing. Returns the
updated subscriber and the client operations performed. -/
def PostHogSubscriber.shutdown (acloseResult : Except PyErr Unit)
    (s : PostHogSubscriber) : Except PyErr (PostHogSubscriber × List ClientOp) :=
  match s.client with
  | some _ =>
    match acloseResult with
    | .ok _ => .ok ({ s with client := none }, [.aclose])
    | .error e => .error e
  | none => .ok (s, [])

/-- The JSON payload `send` posts to `<host>/capture/`. -/
structure Payload where
  api_key : Option String
  event : String
  properties : List (String × Value)
deriving DecidableEq, Repr

/-- An HTTP POST performed by the client. -/
structure HttpPost where
  url : String
  payload : Payload
deriving DecidableEq, Repr

/-- Embeds `PostHogSubscriber.send` (posthog.py lines 51-74): return immediately when
no client is open; otherwise post the payload to `<host>/capture/` — the
environment supplies the post's outcome, `raise_for_status` included — and
re-raise its failure after logging it. Returns the posts attempted. -/
def PostHogSubscriber.send (postResult : Except PyErr Unit)
    (s : PostHogSubscriber) (event : String)
    (properties : Option (List (String × Value))) :
    Except PyErr (List HttpPost) :=
  match s.client with
  | none => .ok []
  | some _ =>
    let url := s.host ++ "/capture/"
    let payload : Payload :=
      { api_key := s.api_key, event := event, properties := properties.getD [] }
    match postResult with
    | .ok _ => .ok [{ url := url, payload := payload }]
    | .error e => .error e

/-- The memoization cache `functools.lru_cache` maintains: the capacity bound
and the cached entries, ordered most recently used first. -/
structure LRUCache (κ ν : Type) where
  maxsize : Nat
  entries : List (κ × ν)
deriving DecidableEq, Repr

/-- Cache lookup by key. -/
def lruGet? {κ ν : Type} [DecidableEq κ] (c : LRUCache κ ν) (k : κ) : Option ν :=
  (c.entries.find? fun kv => kv.1 = k).map Prod.snd

/-- A cache hit marks the entry most recently used: it moves to the front. -/
def lruTouch {κ ν : Type} [DecidableEq κ] (k : κ) (c : LRUCache κ ν) :
    LRUCache κ ν :=
  match c.entries.find? (fun kv => kv.1 = k) with
  | some kv => { c with entries := kv :: c.entries.filter fun kv' => kv'.1 ≠ k }
  | none => c

/-- A cache miss inserts the computed value most recently used and evicts from
the least-recently-used end whatever exceeds the capacity. -/
def lruInsert {κ ν : Type} [DecidableEq κ] (k : κ) (v : ν) (c : LRUCache κ ν) :
    LRUCache κ ν :=
  { c with entries := ((k, v) :: c.entries.filter fun kv => kv.1 ≠ k).take c.maxsize }

/-- Embeds `_infer_name` under its `@lru_cache(maxsize=1024)` decorator (functional.py
lines 18-19): the cache key is the callable's identity `fid`; a hit returns the
memoized name and refreshes its recency, a miss computes the name from the
callable and the call site and memoizes it. -/
def cachedInferName (cache : LRUCache Nat String) (fid : Nat) (f : Fn)
    (cs : CallSite) : String × LRUCache Nat String :=
  match lruGet? cache fid with
  | some v => (v, lruTouch fid cache)
  | none => (_infer_name f cs, lruInsert fid (_infer_name f cs) cache)

/-- The cache `@lru_cache(maxsize=1024)` starts the process with. -/
def inferNameCache : LRUCache Nat String := { maxsize := 1024, entries := [] }

/-- Claim C2: when no explicit name is given, name inference tries, in order,
the callable's declared name (if present and not the anonymous marker), then
the call-site assignment heuristic, then the literal `"unnamed"`; a callable
with no usable declared name and no matching call-site pattern resolves to
`"unnamed"`, and any error inside the heuristic degrades to the fallback. -/
theorem infer_name_resolution_order (f : Fn) (cs : CallSite) :
    (∀ n, f.declaredName = some n → n ≠ "<lambda>" → _infer_name f cs = n) ∧
    ((f.declaredName = none ∨ f.declaredName = some "<lambda>") →
      ∀ w, inferStrategy2 cs = some w → _infer_name f cs = w) ∧
    ((f.declaredName = none ∨ f.declaredName = some "<lambda>") →
      inferStrategy2 cs = none → _infer_name f cs = "unnamed") ∧
    (cs.raises = true →
      (f.declaredName = none ∨ f.declaredName = some "<lambda>") →
      _infer_name f cs = "unnamed") := by
  refine ⟨?_, ?_, ?_, ?_⟩
  · intro n hn hne
    simp [_infer_name, hn, hne]
  · rintro (h | h) w hw <;> simp [_infer_name, h, hw]
  · rintro (h | h) hw <;> simp [_infer_name, h, hw]
  · intro hr h
    have hs : inferStrategy2 cs = none := by simp [inferStrategy2, hr]
    rcases h with h | h <;> simp [_infer_name, h, hs]

/-- Concrete instances of the name-resolution theorem: a declared name wins, an
anonymous callable at a non-matching call site falls back to `"unnamed"`, and a
raising heuristic also falls back. -/
theorem infer_name_resolution_order_witness :
    _infer_name namedFn plainCallSite = "create_user" ∧
    _infer_name anonFn plainCallSite = "unnamed" ∧
    _infer_name anonFn { line := none, raises := true } = "unnamed" := by
  refine ⟨?_, ?_, ?_⟩
  · exact (infer_name_resolution_order namedFn plainCallSite).1 "create_user" rfl (by decide)
  · exact (infer_name_resolution_order anonFn plainCallSite).2.2.1 (Or.inr rfl) (by decide)
  · exact (infer_name_resolution_order anonFn { line := none, raises := true }).2.2.2 rfl
      (Or.inr rfl)

/-- Claim C1: `instrument` returns a mapping with exactly the same keys in
which each value is the input callable wrapped with the key as its explicit
trace name; the name-inference resolver is never consulted (the produced span
is named by the key, identically at every call site); and the example
`instrument({"add": lambda a, b: a + b})["add"](2, 3)` returns 5 and produces
exactly one finished span named `"add"`. -/
theorem instrument_wraps_with_key_names :
    (∀ ops : List (String × Fn),
      instrument ops = ops.map fun kv => (kv.1, trace kv.2 (some kv.1))) ∧
    (∀ ops : List (String × Fn),
      (instrument ops).map Prod.fst = ops.map Prod.fst) ∧
    (∀ (f : Fn) (k : String) (cs cs' : CallSite) (args : List Value),
      (invokeWrapper (trace f (some k)) cs args).2.map SpanRec.name = [k] ∧
      invokeWrapper (trace f (some k)) cs args =
        invokeWrapper (trace f (some k)) cs' args) ∧
    (∀ cs : CallSite,
      (dget? "add" (instrument [("add", addLambda)])).map
          (fun w => invokeWrapper w cs [.vint 2, .vint 3]) =
        some (.ok (.vint 5),
          [{ name := "add", status := .unset, statusDescription := none,
             events := [], finished := true }])) := by
  refine ⟨fun ops => rfl, ?_, ?_, ?_⟩
  · intro ops
    simp [instrument]
  · intro f k cs cs' args
    cases h : f.run args <;> simp [invokeWrapper, trace, h]
  · intro cs
    rfl

/-- Claim C6: for every wrapped callable that raises, invoking the wrapper
produces exactly one finalized span with status ERROR, description equal to the
failure's message and the failure recorded as an exception event, and the
original failure is re-raised unchanged to the caller; a normal result is
likewise passed through unchanged, so the layer never converts a success into
a failure or vice versa. -/
theorem wrapper_error_transparency (f : Fn) (nm : Option String) (cs : CallSite)
    (args : List Value) :
    (∀ e, f.run args = .error e →
      (invokeWrapper (trace f nm) cs args).1 = .error e ∧
      (invokeWrapper (trace f nm) cs args).2 =
        [{ name := nm.getD (_infer_name f cs), status := .error,
           statusDescription := some e.msg,
           events := [{ name := "exception", attrs := [("exception.message", e.msg)] }],
           finished := true }]) ∧
    (∀ v, f.run args = .ok v →
      (invokeWrapper (trace f nm) cs args).1 = .ok v) := by
  constructor
  · intro e he
    constructor <;> simp [invokeWrapper, trace, he]
  · intro v hv
    simp [invokeWrapper, trace, hv]

/-- Concrete instance of the error-transparency theorem: a wrapper around a
callable that raises `"boom"` re-raises it and records one finalized ERROR
span carrying the message and an exception event. -/
theorem wrapper_error_transparency_witness :
    (invokeWrapper (trace failingFn none) plainCallSite []).1 =
      .error { msg := "boom" } ∧
    (invokeWrapper (trace failingFn none) plainCallSite []).2 =
      [{ name := "boom_op", status := .error, statusDescription := some "boom",
         events := [{ name := "exception", attrs := [("exception.message", "boom")] }],
         finished := true }] :=
  (wrapper_error_transparency failingFn none plainCallSite []).1 { msg := "boom" } rfl

theorem dget_dinsert {α : Type} (k k' : String) (v : α) (l : List (String × α)) :
    dget? k (dinsert k' v l) = if k' = k then some v else dget? k l := by
  induction l with
  | nil => simp [dinsert, dget?]
  | cons kv rest ih =>
    by_cases h1 : kv.1 = k' <;> by_cases h2 : k' = k <;>
      simp_all [dinsert, dget?]

theorem mem_keys_dinsert {α : Type} (a k : String) (v : α) (l : List (String × α)) :
    a ∈ (dinsert k v l).map Prod.fst ↔ a = k ∨ a ∈ l.map Prod.fst := by
  induction l with
  | nil => simp [dinsert]
  | cons kv rest ih =>
    by_cases h1 : kv.1 = k
    · subst h1
      simp [dinsert]
    · simp [dinsert, h1, ih]
      tauto

theorem nodup_keys_dinsert {α : Type} (k : String) (v : α) (l : List (String × α))
    (h : (l.map Prod.fst).Nodup) : ((dinsert k v l).map Prod.fst).Nodup := by
  induction l with
  | nil => simp [dinsert]
  | cons kv rest ih =>
    simp only [List.map_cons, List.nodup_cons] at h
    by_cases h1 : kv.1 = k
    · simpa [dinsert, h1] using h
    · simp only [dinsert, h1, if_false, List.map_cons, List.nodup_cons]
      refine ⟨?_, ih h.2⟩
      rw [mem_keys_dinsert]
      rintro (h2 | h2)
      · exact h1 h2
      · exact h.1 h2

theorem dget_eq_none_of_not_mem {α : Type} (k : String) (l : List (String × α))
    (h : k ∉ l.map Prod.fst) : dget? k l = none := by
  induction l with
  | nil => rfl
  | cons kv rest ih =>
    simp only [List.map_cons, List.mem_cons] at h
    push_neg at h
    have : kv.1 ≠ k := fun hh => h.1 hh.symm
    simp [dget?, this, ih h.2]

theorem dlast_eq_dget {α : Type} (k : String) (l : List (String × α))
    (h : (l.map Prod.fst).Nodup) : dlast? k l = dget? k l := by
  induction l with
  | nil => rfl
  | cons kv rest ih =>
    simp only [List.map_cons, List.nodup_cons] at h
    rw [dlast?, dget?, ih h.2]
    by_cases h1 : kv.1 = k
    · subst h1
      rw [dget_eq_none_of_not_mem kv.1 rest h.1]
    · simp only [h1, if_false]
      cases dget? k rest <;> rfl

theorem dget_map_value {α β : Type} (g : α → β) (k : String) (l : List (String × α)) :
    dget? k (l.map fun kv => (kv.1, g kv.2)) = (dget? k l).map g := by
  induction l with
  | nil => rfl
  | cons kv rest ih =>
    by_cases h : kv.1 = k <;> simp [dget?, h, ih]

theorem dget_foldl_dinsert {α β : Type} (g : α → β) (k : String)
    (l : List (String × α)) (init : List (String × β)) :
    dget? k (l.foldl (fun acc kv => dinsert kv.1 (g kv.2) acc) init) =
      orElseO ((dlast? k l).map g) (dget? k init) := by
  induction l generalizing init with
  | nil => simp [dlast?, orElseO]
  | cons kv rest ih =>
    rw [List.foldl_cons, ih, dlast?]
    cases hr : dlast? k rest with
    | some v => simp [orElseO]
    | none =>
      rw [dget_dinsert]
      by_cases h : kv.1 = k <;> simp [h, orElseO]

theorem nodup_keys_foldl_dinsert {α β : Type} (g : α → β) (l : List (String × α))
    (init : List (String × β)) (h : (init.map Prod.fst).Nodup) :
    ((l.foldl (fun acc kv => dinsert kv.1 (g kv.2) acc) init).map Prod.fst).Nodup := by
  induction l generalizing init with
  | nil => exact h
  | cons kv rest ih => exact ih _ (nodup_keys_dinsert _ _ _ h)

theorem baggage_foldl_set_baggage (l : List (String × Value)) (c : Ctx) :
    (l.foldl (fun acc kv => set_baggage kv.1 (pyStr kv.2) acc) c).baggage =
      l.foldl (fun acc kv => dinsert kv.1 (pyStr kv.2) acc) c.baggage := by
  induction l generalizing c with
  | nil => rfl
  | cons kv rest ih => rw [List.foldl_cons, List.foldl_cons, ih]; rfl

theorem dget_with_baggage_ctx (b : List (String × Value)) (c : Ctx) (k : String)
    (h : (c.baggage.map Prod.fst).Nodup) :
    dget? k (with_baggage_ctx b c).baggage =
      orElseO ((dlast? k b).map pyStr) (dget? k c.baggage) := by
  have hexist : ((c.baggage.map fun kv => (kv.1, Value.vstr kv.2)).map Prod.fst).Nodup := by
    simpa [List.map_map, Function.comp] using h
  have hupd : ((dmerge (c.baggage.map fun kv => (kv.1, Value.vstr kv.2)) b).map
      Prod.fst).Nodup := by
    exact nodup_keys_foldl_dinsert (fun v => v) b _ hexist
  have hmain : dget? k (with_baggage_ctx b c).baggage =
      orElseO ((dlast? k
          (dmerge (c.baggage.map fun kv => (kv.1, Value.vstr kv.2)) b)).map pyStr)
        (dget? k c.baggage) := by
    simp only [with_baggage_ctx, get_all]
    rw [baggage_foldl_set_baggage, dget_foldl_dinsert]
  rw [hmain, dlast_eq_dget _ _ hupd]
  have hb : dget? k (dmerge (c.baggage.map fun kv => (kv.1, Value.vstr kv.2)) b) =
      orElseO ((dlast? k b).map (fun v => v))
        (dget? k (c.baggage.map fun kv => (kv.1, Value.vstr kv.2))) :=
    dget_foldl_dinsert (fun v => v) k b _
  rw [hb, dget_map_value]
  cases hbb : dlast? k b with
  | some v => simp [orElseO]
  | none =>
    cases hc : dget? k c.baggage with
    | some s => simp [orElseO, pyStr]
    | none => simp [orElseO]

/-- Claim C3: inside a `with_baggage` scope the visible baggage equals the
prior scope's baggage merged with the supplied entries — new keys added,
existing keys overridden — with every supplied value converted to a string by
`str`, and no key of the parent scope's baggage is removed. -/
theorem with_baggage_merges (b : List (String × Value)) (c : Ctx)
    (h : (c.baggage.map Prod.fst).Nodup) :
    (∀ k v, dlast? k b = some v →
      dget? k (with_baggage_ctx b c).baggage = some (pyStr v)) ∧
    (∀ k, dlast? k b = none →
      dget? k (with_baggage_ctx b c).baggage = dget? k c.baggage) ∧
    (∀ k, (dget? k c.baggage).isSome →
      (dget? k (with_baggage_ctx b c).baggage).isSome) := by
  refine ⟨?_, ?_, ?_⟩
  · intro k v hv
    rw [dget_with_baggage_ctx b c k h, hv]
    rfl
  · intro k hv
    rw [dget_with_baggage_ctx b c k h, hv]
    rfl
  · intro k hk
    rw [dget_with_baggage_ctx b c k h]
    cases hb : dlast? k b with
    | some v => simp [orElseO]
    | none => simpa [orElseO] using hk

/-- Concrete instance of the baggage-merge theorem: over baggage
`{region: eu, tenant.id: t1}`, the scope `{user.id: "u1", tenant.id: 7}` sees
the new key, the stringified override, and the untouched parent key. -/
theorem with_baggage_merges_witness :
    dget? "user.id" (with_baggage_ctx demoBag demoCtx).baggage = some "u1" ∧
    dget? "tenant.id" (with_baggage_ctx demoBag demoCtx).baggage = some "7" ∧
    dget? "region" (with_baggage_ctx demoBag demoCtx).baggage = some "eu" :=
  ⟨(with_baggage_merges demoBag demoCtx (by decide)).1 "user.id" (.vstr "u1") (by decide),
   (with_baggage_merges demoBag demoCtx (by decide)).1 "tenant.id" (.vint 7) (by decide),
   (with_baggage_merges demoBag demoCtx (by decide)).2.1 "region" (by decide)⟩

/-- Claim C4: a `with_baggage` scope restores the previously active context
exactly on exit — for every body, including bodies that raise (`Except`-valued
instances) — and nesting is safe: an inner scope that exits while an outer one
is active hands the outer scope back exactly the context the outer scope
established, so the inner entries become invisible and the outer view is
unchanged. -/
theorem with_baggage_restores_on_exit :
    (∀ (α : Type) (b : List (String × Value)) (body : OtelState → α × OtelState)
        (st : OtelState),
      ((with_baggage_run b body st).2).current = st.current) ∧
    (∀ (α : Type) (bOuter bInner : List (String × Value))
        (bodyInner : OtelState → α × OtelState) (st : OtelState),
      ((with_baggage_run bInner bodyInner
          { st with current := with_baggage_ctx bOuter st.current }).2).current =
        with_baggage_ctx bOuter st.current) :=
  ⟨fun _ _ _ _ => rfl, fun _ _ _ _ _ => rfl⟩

/-- Claim C5: `with_new_context` detaches the trace linkage for the scope's
duration — a span opened inside gets a fresh trace id, different from the id
any span opened outside under the active span carries — and on exit (normal or
raising, for every body) the prior context is restored exactly, so a span
opened immediately after resumes the outer trace id. -/
theorem with_new_context_detaches_and_restores :
    (∀ (α : Type) (body : OtelState → α × OtelState) (st : OtelState),
      ((with_new_context_run body st).2).current = st.current) ∧
    (∀ (st : OtelState) (sc : SpanContext),
      st.current.activeSpan = some sc → sc.traceId < st.nextTraceId →
      (start_span_trace_id st).1 = sc.traceId ∧
      (with_new_context_run start_span_trace_id st).1 ≠ sc.traceId ∧
      (start_span_trace_id ((with_new_context_run start_span_trace_id st).2)).1 =
        sc.traceId) := by
  refine ⟨fun _ _ _ => rfl, ?_⟩
  intro st sc hact hlt
  refine ⟨by simp [start_span_trace_id, hact], ?_, ?_⟩
  · simpa [with_new_context_run, start_span_trace_id, Ctx.empty] using (ne_of_gt hlt)
  · simp [with_new_context_run, start_span_trace_id, Ctx.empty, hact]

/-- Concrete instance of the root-context theorem: under an active span of
trace id 5 with fresh ids from 10, the span inside the scope gets trace id
10 ≠ 5 and the span opened right after exit is back on trace 5. -/
theorem with_new_context_detaches_and_restores_witness :
    (start_span_trace_id demoState).1 = 5 ∧
    (with_new_context_run start_span_trace_id demoState).1 ≠ 5 ∧
    (start_span_trace_id ((with_new_context_run start_span_trace_id demoState).2)).1 = 5 :=
  (with_new_context_detaches_and_restores).2 demoState { traceId := 5 } rfl (by decide)

/-- Claim C7: PostHog subscriber construction fails synchronously: a missing
`httpx` dependency raises `ImportError` at construction, a missing credential
(empty `api_key` and an absent or empty legacy `project_api_key`) raises
`ValueError` at construction, and with the dependency and a credential present
construction succeeds outright — no such error is deferred to `send` or
`shutdown`. -/
theorem posthog_init_fails_fast :
    (∀ (k h : String) (p : Option String),
      PostHogSubscriber.init false k h p =
        .error (.importError
          "httpx is required for PostHogSubscriber. Install with: pip install httpx")) ∧
    (∀ (h : String) (p : Option String), p = none ∨ p = some "" →
      PostHogSubscriber.init true "" h p =
        .error (.valueError "api_key is required")) ∧
    (∀ (k h : String) (p : Option String), truthyStr (pyOrStr k p) = true →
      PostHogSubscriber.init true k h p =
        .ok { api_key := pyOrStr k p, host := rstripSlash h, client := some () }) := by
  refine ⟨fun k h p => rfl, ?_, ?_⟩
  · rintro h p (rfl | rfl) <;> rfl
  · intro k h p hk
    simp [PostHogSubscriber.init, hk]

/-- Concrete instances of the fail-fast theorem: no `httpx` raises
`ImportError`, no credential raises `ValueError`, and a credentialed
construction succeeds with the host normalized. -/
theorem posthog_init_fails_fast_witness :
    PostHogSubscriber.init false "phc_key" "https://app.posthog.com" none =
      .error (.importError
        "httpx is required for PostHogSubscriber. Install with: pip install httpx") ∧
    PostHogSubscriber.init true "" "https://app.posthog.com" none =
      .error (.valueError "api_key is required") ∧
    PostHogSubscriber.init true "phc_key" "https://eu.posthog.com/" none =
      .ok { api_key := some "phc_key", host := "https://eu.posthog.com",
            client := some () } :=
  ⟨posthog_init_fails_fast.1 "phc_key" "https://app.posthog.com" none,
   posthog_init_fails_fast.2.1 "https://app.posthog.com" none (Or.inl rfl),
   posthog_init_fails_fast.2.2 "phc_key" "https://eu.posthog.com/" none (by decide)⟩

/-- Claim C8: shutdown is idempotent: once a shutdown has completed, any
further shutdown returns without raising, performs no client operation, and
leaves the subscriber in the same shut-down state — shutdown-then-shutdown is
observably equivalent to a single shutdown. -/
theorem posthog_shutdown_idempotent (s s' : PostHogSubscriber)
    (r : Except PyErr Unit) (ops : List ClientOp)
    (h : PostHogSubscriber.shutdown r s = .ok (s', ops)) :
    ∀ r' : Except PyErr Unit, PostHogSubscriber.shutdown r' s' = .ok (s', []) := by
  intro r'
  cases hc : s.client with
  | none =>
    simp only [PostHogSubscriber.shutdown, hc, Except.ok.injEq, Prod.mk.injEq] at h
    rcases h with ⟨rfl, rfl⟩
    simp [PostHogSubscriber.shutdown, hc]
  | some u =>
    cases r with
    | error e => simp [PostHogSubscriber.shutdown, hc] at h
    | ok _ =>
      simp only [PostHogSubscriber.shutdown, hc, Except.ok.injEq, Prod.mk.injEq] at h
      rcases h with ⟨rfl, rfl⟩
      simp [PostHogSubscriber.shutdown]

/-- Concrete instance of shutdown idempotence: after shutting down an open
subscriber, a second shutdown — even one whose would-be `aclose` outcome is a
failure — is a no-op that cannot reach the client. -/
theorem posthog_shutdown_idempotent_witness :
    PostHogSubscriber.shutdown (.error (.httpError "already closed"))
      { api_key := some "phc_key", host := "h", client := none } =
      .ok ({ api_key := some "phc_key", host := "h", client := none }, []) :=
  posthog_shutdown_idempotent
    { api_key := some "phc_key", host := "h", client := some () }
    { api_key := some "phc_key", host := "h", client := none }
    (.ok ()) [.aclose] rfl (.error (.httpError "already closed"))

/-- Claim C10: once shutdown has completed, every `send` — for any event name,
any properties, and any would-be outcome of the underlying post — returns
immediately as a silent no-op: no delivery is attempted and no error is
raised. -/
theorem posthog_send_after_shutdown_noop (s s' : PostHogSubscriber)
    (r : Except PyErr Unit) (ops : List ClientOp)
    (h : PostHogSubscriber.shutdown r s = .ok (s', ops)) :
    ∀ (postResult : Except PyErr Unit) (event : String)
      (properties : Option (List (String × Value))),
      PostHogSubscriber.send postResult s' event properties = .ok [] := by
  intro postResult event properties
  cases hc : s.client with
  | none =>
    simp only [PostHogSubscriber.shutdown, hc, Except.ok.injEq, Prod.mk.injEq] at h
    rcases h with ⟨rfl, rfl⟩
    simp [PostHogSubscriber.send, hc]
  | some u =>
    cases r with
    | error e => simp [PostHogSubscriber.shutdown, hc] at h
    | ok _ =>
      simp only [PostHogSubscriber.shutdown, hc, Except.ok.injEq, Prod.mk.injEq] at h
      rcases h with ⟨rfl, rfl⟩
      simp [PostHogSubscriber.send]

/-- Concrete instance of send-after-shutdown: a shut-down subscriber silently
ignores a send whose underlying post would have failed. -/
theorem posthog_send_after_shutdown_noop_witness :
    PostHogSubscriber.send (.error (.httpError "connection refused"))
      { api_key := some "phc_key", host := "h", client := none }
      "operation.completed" (some [("ok", Value.vbool true)]) = .ok [] :=
  posthog_send_after_shutdown_noop
    { api_key := some "phc_key", host := "h", client := some () }
    { api_key := some "phc_key", host := "h", client := none }
    (.ok ()) [.aclose] rfl (.error (.httpError "connection refused"))
    "operation.completed" (some [("ok", Value.vbool true)])

theorem lruGet_lruTouch_self {κ ν : Type} [DecidableEq κ] (k : κ) (c : LRUCache κ ν) :
    lruGet? (lruTouch k c) k = lruGet? c k := by
  rw [lruTouch]
  cases hf : c.entries.find? (fun kv => kv.1 = k) with
  | none => rfl
  | some kv =>
    have hkv := List.find?_some hf
    simp only [lruGet?, hf]
    simp [List.find?_cons, hkv]

theorem lruGet_lruInsert_self {κ ν : Type} [DecidableEq κ] (k : κ) (v : ν)
    (c : LRUCache κ ν) (h : 0 < c.maxsize) :
    lruGet? (lruInsert k v c) k = some v := by
  rcases hn : c.maxsize with _ | m
  · omega
  · simp [lruGet?, lruInsert, hn, List.take_succ_cons, List.find?_cons]

theorem lruInsert_length_le {κ ν : Type} [DecidableEq κ] (k : κ) (v : ν)
    (c : LRUCache κ ν) : (lruInsert k v c).entries.length ≤ c.maxsize := by
  simp [lruInsert, List.length_take]

theorem lruTouch_length_le {κ ν : Type} [DecidableEq κ] (k : κ) (c : LRUCache κ ν) :
    (lruTouch k c).entries.length ≤ c.entries.length := by
  rw [lruTouch]
  cases hf : c.entries.find? (fun kv => kv.1 = k) with
  | none => exact le_refl _
  | some kv =>
    have hkv := List.find?_some hf
    have hmem := List.mem_of_find?_eq_some hf
    have hlt : (c.entries.filter fun kv' => kv'.1 ≠ k).length < c.entries.length := by
      refine List.length_filter_lt_length_iff_exists.mpr ⟨kv, hmem, ?_⟩
      simp at hkv
      simp [hkv]
    simpa using Nat.succ_le_of_lt hlt

theorem lruMaxsize_lruTouch {κ ν : Type} [DecidableEq κ] (k : κ) (c : LRUCache κ ν) :
    (lruTouch k c).maxsize = c.maxsize := by
  rw [lruTouch]
  cases c.entries.find? (fun kv => kv.1 = k) <;> rfl

/-- Claim C9: the name-inference cache maps callable identity to the resolved
name; memoized entries are stable — a repeated lookup for the same callable
returns the same name even when the callable or call-site information offered
with it differs — the capacity (1024 in the source) is fixed across
operations, the entry count never exceeds it, and when a full cache takes a
new key the evicted entry is exactly the least recently used one. -/
theorem infer_name_cache_lru (cache : LRUCache Nat String) (fid : Nat)
    (f f' : Fn) (cs cs' : CallSite) :
    inferNameCache.maxsize = 1024 ∧
    (∀ v, lruGet? cache fid = some v → (cachedInferName cache fid f cs).1 = v) ∧
    (0 < cache.maxsize →
      (cachedInferName (cachedInferName cache fid f cs).2 fid f' cs').1 =
        (cachedInferName cache fid f cs).1) ∧
    (cachedInferName cache fid f cs).2.maxsize = cache.maxsize ∧
    (cache.entries.length ≤ cache.maxsize →
      (cachedInferName cache fid f cs).2.entries.length ≤ cache.maxsize) ∧
    (0 < cache.maxsize → lruGet? cache fid = none →
      cache.entries.length = cache.maxsize →
      (cachedInferName cache fid f cs).2.entries =
        (fid, _infer_name f cs) :: cache.entries.dropLast) := by
  refine ⟨rfl, ?_, ?_, ?_, ?_, ?_⟩
  · intro v hv
    simp [cachedInferName, hv]
  · intro hpos
    cases hget : lruGet? cache fid with
    | some v =>
      have h2 : lruGet? (lruTouch fid cache) fid = some v := by
        rw [lruGet_lruTouch_self, hget]
      simp [cachedInferName, hget, h2]
    | none =>
      have h2 : lruGet? (lruInsert fid (_infer_name f cs) cache) fid =
          some (_infer_name f cs) :=
        lruGet_lruInsert_self fid _ cache hpos
      simp [cachedInferName, hget, h2]
  · cases hget : lruGet? cache fid with
    | some v => simp [cachedInferName, hget, lruMaxsize_lruTouch]
    | none => simp [cachedInferName, hget, lruInsert]
  · intro hle
    cases hget : lruGet? cache fid with
    | some v =>
      simp only [cachedInferName, hget]
      exact le_trans (lruTouch_length_le fid cache) hle
    | none =>
      simp only [cachedInferName, hget]
      exact lruInsert_length_le fid _ cache
  · intro hpos hget hfull
    have hfind : cache.entries.find? (fun kv => kv.1 = fid) = none := by
      rw [lruGet?] at hget
      exact Option.map_eq_none'.mp hget
    have hfilter : (cache.entries.filter fun kv => kv.1 ≠ fid) = cache.entries := by
      refine List.filter_eq_self.mpr ?_
      intro a ha
      have := List.find?_eq_none.mp hfind a ha
      simp at this
      simp [this]
    simp only [cachedInferName, hget, lruInsert, hfilter]
    rcases hn : cache.maxsize with _ | m
    · omega
    · rw [List.take_succ_cons, List.dropLast_eq_take]
      have : cache.entries.length - 1 = m := by omega
      rw [this]

/-- A full two-entry cache with `(1, "alpha")` most recently used, exercising
the cache theorems. -/
def lruDemoCache : LRUCache Nat String :=
  { maxsize := 2, entries := [(1, "alpha"), (2, "beta")] }

/-- Concrete instances of the cache theorem: a hit returns the memoized name,
a miss immediately followed by a lookup of the same callable returns the name
just memoized even though the call-site information changed, and inserting a
third name into the full cache evicts exactly the least recently used entry
`(2, "beta")`. -/
theorem infer_name_cache_lru_witness :
    (cachedInferName lruDemoCache 1 anonFn plainCallSite).1 = "alpha" ∧
    (cachedInferName (cachedInferName lruDemoCache 3 anonFn plainCallSite).2 3
        namedFn { line := none, raises := true }).1 =
      (cachedInferName lruDemoCache 3 anonFn plainCallSite).1 ∧
    (cachedInferName lruDemoCache 3 anonFn plainCallSite).2.entries =
      [(3, "unnamed"), (1, "alpha")] :=
  ⟨(infer_name_cache_lru lruDemoCache 1 anonFn anonFn plainCallSite
      plainCallSite).2.1 "alpha" (by decide),
   (infer_name_cache_lru lruDemoCache 3 anonFn namedFn plainCallSite
      { line := none, raises := true }).2.2.1 (by decide),
   (infer_name_cache_lru lruDemoCache 3 anonFn namedFn plainCallSite
      plainCallSite).2.2.2.2.2 (by decide) (by decide) (by decide)⟩

end Autotel
